import Mathlib

/-!
Verification development for the global re-bind finder
(`find_global_re_binds.py`): a static analysis that walks the top-level
statements of a parsed Python module and records, per name, the full
history of binding descriptors whenever a name is bound more than once
in the module's top-level scope.

The embedding mirrors the source:
* Python `dict` (insertion-ordered, update-in-place) is modelled by an
  association list with `dictLookup` / `dictInsert`;
* `GlobalRebindFinder` carries the two dicts `in_scope` and `re_binds`;
* the `ast.NodeVisitor` dispatch is modelled by `visitStmt`: statement
  kinds with a dedicated `visit_<Kind>` method get that method's body,
  every other statement kind falls through to `generic_visit`, which
  visits the statement's child nodes in field order (for statements,
  only child statements can change the tracker, since no expression
  node has a dedicated visitor method).
-/

/-- Python dict lookup (`d[k]` / `k in d`) on an insertion-ordered
association list. -/
def dictLookup {α : Type} (k : String) : List (String × α) → Option α
  | [] => none
  | (k₀, v₀) :: rest => if k₀ = k then some v₀ else dictLookup k rest

/-- Python dict assignment `d[k] = v`: update in place when the key is
present (keeping its position), append at the end otherwise. -/
def dictInsert {α : Type} (d : List (String × α)) (k : String) (v : α) :
    List (String × α) :=
  match d with
  | [] => [(k, v)]
  | (k₀, v₀) :: rest =>
      if k₀ = k then (k, v) :: rest else (k₀, v₀) :: dictInsert rest k v

/-- State of `GlobalRebindFinder`: the two dicts `in_scope` (name to its
current descriptor) and `re_binds` (name to its ordered descriptor
history, present only for rebound names). -/
structure GlobalRebindFinder where
  in_scope : List (String × String)
  re_binds : List (String × List String)
  deriving DecidableEq, Repr

/-- The freshly constructed tracker: both dicts empty. -/
def initialState : GlobalRebindFinder := { in_scope := [], re_binds := [] }

/-- History value written by `add_name_to_scope` on a rebind: seed with
the previous current descriptor when no history exists, else append. -/
def newHistory (prevHist : Option (List String)) (prev value : String) :
    List String :=
  match prevHist with
  | none => [prev, value]
  | some h => h ++ [value]

/-- `GlobalRebindFinder.add_name_to_scope`: record one binding event.
If the name is already in scope this is a rebind and the history is
updated; in every case the current value becomes `value`. -/
def add_name_to_scope (s : GlobalRebindFinder) (name value : String) :
    GlobalRebindFinder :=
  match dictLookup name s.in_scope with
  | none =>
      { in_scope := dictInsert s.in_scope name value, re_binds := s.re_binds }
  | some prev =>
      { in_scope := dictInsert s.in_scope name value,
        re_binds := dictInsert s.re_binds name
          (newHistory (dictLookup name s.re_binds) prev value) }

/-- One entry of an import list: `ast.alias` with `name` and optional
`asname`. -/
structure Alias where
  name : String
  asname : Option String
  deriving DecidableEq, Repr

/-- An assignment target, as far as `visit_Assign` inspects it: either a
simple name (`ast.Name`, whose `id` it reads) or some other target kind
(tuple, attribute, subscript), whose contents the visitor never looks at. -/
inductive Target where
  | name (id : String)
  | tupleTarget
  | attributeTarget
  | subscriptTarget
  deriving DecidableEq, Repr

/-- Python statements as far as the visitor distinguishes them.  The five
recognized kinds carry the fields their `visit_<Kind>` methods read; an
assignment's right-hand side is carried as its `ast.dump` serialization
(the only use the source makes of it).  Control-flow statements carry
their child statement blocks in `ast` field order, since `generic_visit`
recurses into them; `exprStmt` and `passStmt` stand for statements whose
children contain no statements at all. -/
inductive Stmt where
  | importStmt (names : List Alias)
  | importFrom (module : Option String) (names : List Alias)
  | assign (targets : List Target) (valueDump : String)
  | classDef (name : String) (body : List Stmt)
  | functionDef (name : String) (body : List Stmt)
  | ifStmt (body : List Stmt) (orelse : List Stmt)
  | forStmt (body : List Stmt) (orelse : List Stmt)
  | whileStmt (body : List Stmt) (orelse : List Stmt)
  | withStmt (body : List Stmt)
  | tryStmt (body : List Stmt) (handlers : List (List Stmt))
      (orelse : List Stmt) (finalbody : List Stmt)
  | exprStmt
  | passStmt

/-- The body of the loop of `visit_Import`, for one `ast.alias`: the
defined name is the alias when given, else the dotted module path as
written, and the descriptor is `"(import) "` plus that path. -/
def visitImportAlias (st : GlobalRebindFinder) (a : Alias) :
    GlobalRebindFinder :=
  let defined := match a.asname with | none => a.name | some n => n
  add_name_to_scope st defined ("(import) " ++ a.name)

/-- The body of the loop of `visit_ImportFrom`, for one `ast.alias`: the
defined name is the alias when given, else the imported name; the value
is the imported name alone when `node.module` is `None`, else the module
and the imported name joined by `"."`. -/
def visitImportFromAlias (module : Option String) (st : GlobalRebindFinder)
    (a : Alias) : GlobalRebindFinder :=
  let defined := match a.asname with | none => a.name | some n => n
  let value :=
    match module with
    | none => a.name
    | some m => m ++ "." ++ a.name
  add_name_to_scope st defined ("(import from) " ++ value)

/-- The body of the loop of `visit_Assign`, for one target: record a
binding only when the target is an `ast.Name`, using the `ast.dump` of
the assigned expression as the value; skip every other target kind. -/
def visitAssignTarget (valueDump : String) (st : GlobalRebindFinder) :
    Target → GlobalRebindFinder
  | .name id => add_name_to_scope st id valueDump
  | _ => st

mutual

/-- `NodeVisitor.visit` on one statement: dispatch to the matching
`visit_<Kind>` method of `GlobalRebindFinder` when one exists
(import, import-from, assign, class def, function def), else
`generic_visit`, which visits the statement's children in field order.
Class and function definitions do not call `generic_visit`, so their
bodies are never entered. -/
def visitStmt (s : GlobalRebindFinder) : Stmt → GlobalRebindFinder
  | .importStmt names => names.foldl visitImportAlias s
  | .importFrom module names => names.foldl (visitImportFromAlias module) s
  | .assign targets valueDump => targets.foldl (visitAssignTarget valueDump) s
  | .classDef name _body => add_name_to_scope s name ("class::" ++ name)
  | .functionDef name _body => add_name_to_scope s name ("function::" ++ name)
  | .ifStmt body orelse => visitStmts (visitStmts s body) orelse
  | .forStmt body orelse => visitStmts (visitStmts s body) orelse
  | .whileStmt body orelse => visitStmts (visitStmts s body) orelse
  | .withStmt body => visitStmts s body
  | .tryStmt body handlers orelse finalbody =>
      visitStmts (visitStmts (visitHandlers (visitStmts s body) handlers) orelse)
        finalbody
  | .exprStmt => s
  | .passStmt => s

/-- Visit a block of statements in document order. -/
def visitStmts (s : GlobalRebindFinder) : List Stmt → GlobalRebindFinder
  | [] => s
  | st :: rest => visitStmts (visitStmt s st) rest

/-- Visit the bodies of a list of `except` handlers in order (a handler's
other fields hold no statements). -/
def visitHandlers (s : GlobalRebindFinder) :
    List (List Stmt) → GlobalRebindFinder
  | [] => s
  | h :: rest => visitHandlers (visitStmts s h) rest

end

/-- Visiting a `Module` node: `generic_visit` over its top-level
statements, starting from a fresh tracker. -/
def visitModule (stmts : List Stmt) : GlobalRebindFinder :=
  visitStmts initialState stmts

/-- Tests whether `needle` occurs as a prefix of `hay` (character lists). -/
def matchesAt : List Char → List Char → Bool
  | [], _ => true
  | _ :: _, [] => false
  | a :: as, b :: bs => decide (a = b) && matchesAt as bs

/-- Occurrence of `needle` as a contiguous run anywhere in `hay`. -/
def occursInList (n : List Char) : List Char → Bool
  | [] => matchesAt n []
  | b :: bs => matchesAt n (b :: bs) || occursInList n bs

/-- The Python substring test `needle in hay` on strings. -/
def pyIn (needle hay : String) : Bool := occursInList needle.toList hay.toList

/-- A directory to scan, abstracting the file-system collaborators:
`pyFiles` and `pyiFiles` are the relative paths produced by the two
recursive glob calls (`"**/*.py"` and `"**/*.pyi"`), in glob order, and
`parse` is the result of opening, reading and parsing one relative path
(top-level statements on success, the raised error otherwise). -/
structure Directory where
  pyFiles : List String
  pyiFiles : List String
  parse : String → Except String (List Stmt)

/-- The candidate list of `re_binds_in_directory`: glob results with the
exclusion filter `not ("setup.py" in relative_path or "test" in
relative_path)` applied. -/
def candidateFiles (d : Directory) : List String :=
  (d.pyFiles ++ d.pyiFiles).filter
    (fun p => !(pyIn "setup.py" p || pyIn "test" p))

/-- `re_binds_in_source`: parse one file and return the `re_binds` dict of
a fresh `GlobalRebindFinder` after visiting the module; a read or parse
failure propagates. -/
def re_binds_in_source (parsed : Except String (List Stmt)) :
    Except String (List (String × List String)) :=
  match parsed with
  | .error e => .error e
  | .ok stmts => .ok (visitModule stmts).re_binds

/-- The dict comprehension of `re_binds_in_directory`, over a list of
relative paths in order: each file maps `"<directory>/<path>"` to its
`re_binds_in_source` result, and the first failure aborts the whole
comprehension with that error. -/
def scanFiles (directory : String) (d : Directory) :
    List String → Except String (List (String × List (String × List String)))
  | [] => .ok []
  | p :: rest =>
      match re_binds_in_source (d.parse p) with
      | .error e => .error e
      | .ok r =>
          match scanFiles directory d rest with
          | .error e => .error e
          | .ok m => .ok ((directory ++ "/" ++ p, r) :: m)

/-- `re_binds_in_directory`: enumerate candidates, filter, scan each. -/
def re_binds_in_directory (directory : String) (d : Directory) :
    Except String (List (String × List (String × List String))) :=
  scanFiles directory d (candidateFiles d)

/-- The lines printed for one file by the report loop of `main`: nothing
when the file's `re_binds` is empty, else a `---` separator, the path,
and each rebound name followed by its descriptor history. -/
def reportLines (sourcePath : String)
    (sourceReBinds : List (String × List String)) : List String :=
  if sourceReBinds.length > 0 then
    ["---", sourcePath] ++
      (sourceReBinds.map
        (fun nv => ("  " ++ nv.1) :: nv.2.map (fun v => "    " ++ v))).flatten
  else []

/-- The full standard output of `main` as a list of lines (or the
propagated fatal error): the no-re-binds message is printed exactly when
the aggregate dict itself is empty, then the per-file report loop runs. -/
def mainOutput (directory : String) (d : Directory) :
    Except String (List String) :=
  match re_binds_in_directory directory d with
  | .error e => .error e
  | .ok directory_re_binds =>
      .ok ((if directory_re_binds.length = 0 then
              ["(No global re-binds found in " ++ directory ++ ")"]
            else []) ++
           (directory_re_binds.map (fun pr => reportLines pr.1 pr.2)).flatten)

/-- The descriptors recorded for `name`, in chronological order, over a
sequence of `record` calls given as (name, descriptor) pairs. -/
def bindingsFor (name : String) : List (String × String) → List String
  | [] => []
  | (n, d) :: rest =>
      if n = name then d :: bindingsFor name rest else bindingsFor name rest

/-- Run a sequence of `add_name_to_scope` calls on a fresh tracker. -/
def applyRecords (records : List (String × String)) : GlobalRebindFinder :=
  records.foldl (fun s r => add_name_to_scope s r.1 r.2) initialState

/-- Statement kinds that have a dedicated `visit_<Kind>` method. -/
def isRecognizedStmt : Stmt → Bool
  | .importStmt _ => true
  | .importFrom _ _ => true
  | .assign _ _ => true
  | .classDef _ _ => true
  | .functionDef _ _ => true
  | _ => false

/-- The statements nested directly in the blocks of a statement that has
no dedicated visitor method, concatenated in `ast` field order (the order
`generic_visit` reaches them); `[]` for the five recognized kinds, whose
visitor methods never call `generic_visit`. -/
def nestedStmts : Stmt → List Stmt
  | .ifStmt body orelse => body ++ orelse
  | .forStmt body orelse => body ++ orelse
  | .whileStmt body orelse => body ++ orelse
  | .withStmt body => body
  | .tryStmt body handlers orelse finalbody =>
      body ++ handlers.flatten ++ orelse ++ finalbody
  | _ => []

/-- Tests for the `isinstance(target, ast.Name)` check of `visit_Assign`. -/
def isNameTarget : Target → Bool
  | .name _ => true
  | _ => false

/-- The import-from descriptor exactly as the claim words it: the string
`"(import from) "` followed by the module and the imported name joined by
a dot, the module rendered as the empty string when absent. -/
def claimImportFromDescriptor (module : Option String) (name : String) :
    String :=
  "(import from) " ++ (module.getD "") ++ "." ++ name

/-- The name an import-from alias binds: the alias if given, else the
imported name. -/
def boundName (a : Alias) : String :=
  match a.asname with
  | none => a.name
  | some n => n

/-- The descriptor an import-from alias records: `"(import from) "`
followed by the module and the imported name joined by a dot when a
module is present, and by the bare imported name when the module is
absent (relative import with no written module). -/
def importFromDescriptor (module : Option String) (name : String) : String :=
  match module with
  | none => "(import from) " ++ name
  | some m => "(import from) " ++ m ++ "." ++ name

/-- The directory exhibiting C3's divergence: one candidate file that
parses to a module with no statements, hence an empty re-bind history. -/
def emptyHistoryDir : Directory :=
  { pyFiles := ["a.py"], pyiFiles := [], parse := fun _ => Except.ok [] }

/-- A directory with no candidate files at all. -/
def noCandidatesDir : Directory :=
  { pyFiles := [], pyiFiles := [], parse := fun _ => Except.ok [] }

theorem dictLookup_insert_self {α : Type} (d : List (String × α)) (k : String)
    (v : α) : dictLookup k (dictInsert d k v) = some v := by
  induction d with
  | nil => simp [dictInsert, dictLookup]
  | cons p rest ih =>
      obtain ⟨k₀, v₀⟩ := p
      by_cases h : k₀ = k
      · simp [dictInsert, h, dictLookup]
      · simp [dictInsert, h, dictLookup, ih]

theorem dictLookup_insert_ne {α : Type} (d : List (String × α))
    (k k₁ : String) (v : α) (hne : k₁ ≠ k) :
    dictLookup k₁ (dictInsert d k v) = dictLookup k₁ d := by
  induction d with
  | nil =>
      have hke : ¬k = k₁ := fun h => hne h.symm
      simp [dictInsert, dictLookup, hke]
  | cons p rest ih =>
      obtain ⟨k₀, v₀⟩ := p
      by_cases h : k₀ = k
      · subst h
        have hne₁ : ¬k₀ = k₁ := fun h => hne h.symm
        simp [dictInsert, dictLookup, hne₁]
      · simp only [dictInsert, if_neg h]
        by_cases h₁ : k₀ = k₁
        · simp [dictLookup, h₁]
        · simp [dictLookup, h₁, ih]

theorem matchesAt_iff (n : List Char) : ∀ h : List Char,
    matchesAt n h = true ↔ ∃ r, h = n ++ r := by
  induction n with
  | nil => intro h; simp [matchesAt]
  | cons a as ih =>
      intro h
      cases h with
      | nil =>
          simp only [matchesAt, List.cons_append]
          constructor
          · intro hfalse; cases hfalse
          · rintro ⟨r, hr⟩; cases hr
      | cons b bs =>
          simp only [matchesAt, Bool.and_eq_true, decide_eq_true_eq, ih,
            List.cons_append, List.cons.injEq]
          constructor
          · rintro ⟨hab, r, hr⟩
            exact ⟨r, hab.symm, hr⟩
          · rintro ⟨r, hba, hr⟩
            exact ⟨hba.symm, r, hr⟩

theorem occursInList_iff (n : List Char) : ∀ h : List Char,
    occursInList n h = true ↔ ∃ l r, h = l ++ n ++ r := by
  intro h
  induction h with
  | nil =>
      simp only [occursInList, matchesAt_iff]
      constructor
      · rintro ⟨r, hr⟩
        exact ⟨[], r, by simpa using hr⟩
      · rintro ⟨l, r, hr⟩
        have h₀ := hr.symm
        simp only [List.append_assoc, List.append_eq_nil] at h₀
        exact ⟨[], by simp [h₀.2.1]⟩
  | cons b bs ih =>
      simp only [occursInList, Bool.or_eq_true, matchesAt_iff, ih]
      constructor
      · rintro (⟨r, hr⟩ | ⟨l, r, hr⟩)
        · exact ⟨[], r, by simpa using hr⟩
        · exact ⟨b :: l, r, by simp [hr]⟩
      · rintro ⟨l, r, hr⟩
        cases l with
        | nil => exact Or.inl ⟨r, by simpa using hr⟩
        | cons l₀ ls =>
            right
            simp only [List.cons_append, List.cons.injEq] at hr
            exact ⟨ls, r, hr.2⟩

theorem string_data_append (s t : String) : (s ++ t).data = s.data ++ t.data :=
  rfl

/-- `pyIn` is exactly contiguous-substring occurrence, phrased with string
concatenation. -/
theorem pyIn_iff (needle hay : String) :
    pyIn needle hay = true ↔ ∃ pre post : String, hay = pre ++ needle ++ post := by
  rw [pyIn, occursInList_iff]
  constructor
  · rintro ⟨l, r, hr⟩
    refine ⟨⟨l⟩, ⟨r⟩, ?_⟩
    obtain ⟨hd⟩ := hay
    simp only [String.toList] at hr
    simp [String.ext_iff, string_data_append, hr]
  · rintro ⟨pre, post, hr⟩
    exact ⟨pre.data, post.data, by simp [hr, String.toList, string_data_append]⟩

theorem bindingsFor_append (name : String) (rs rs' : List (String × String)) :
    bindingsFor name (rs ++ rs') = bindingsFor name rs ++ bindingsFor name rs' := by
  induction rs with
  | nil => simp [bindingsFor]
  | cons r rest ih =>
      obtain ⟨n, d⟩ := r
      by_cases h : n = name <;> simp [bindingsFor, h, ih]

theorem applyRecords_concat (rs : List (String × String))
    (r : String × String) :
    applyRecords (rs ++ [r]) = add_name_to_scope (applyRecords rs) r.1 r.2 := by
  simp [applyRecords, List.foldl_append]

theorem add_in_scope_eq (s : GlobalRebindFinder) (name value : String) :
    (add_name_to_scope s name value).in_scope =
      dictInsert s.in_scope name value := by
  unfold add_name_to_scope
  cases dictLookup name s.in_scope <;> rfl

theorem add_re_binds_of_not_in_scope (s : GlobalRebindFinder)
    (name value : String) (h : dictLookup name s.in_scope = none) :
    (add_name_to_scope s name value).re_binds = s.re_binds := by
  unfold add_name_to_scope
  rw [h]

theorem add_re_binds_of_in_scope (s : GlobalRebindFinder)
    (name value prev : String) (h : dictLookup name s.in_scope = some prev) :
    (add_name_to_scope s name value).re_binds =
      dictInsert s.re_binds name
        (newHistory (dictLookup name s.re_binds) prev value) := by
  unfold add_name_to_scope
  rw [h]

/-- Joint invariant of one tracker over a record sequence: the current
value of a name is its last observed descriptor, and the history entry is
the full chronological descriptor list exactly when at least two
descriptors were observed for the name. -/
theorem applyRecords_inv (records : List (String × String)) (name : String) :
    dictLookup name (applyRecords records).in_scope =
      (bindingsFor name records).getLast? ∧
    dictLookup name (applyRecords records).re_binds =
      (if 2 ≤ (bindingsFor name records).length then
        some (bindingsFor name records) else none) := by
  induction records using List.reverseRecOn with
  | nil => simp [applyRecords, initialState, bindingsFor, dictLookup]
  | append_singleton rs r ih =>
      obtain ⟨n, dsc⟩ := r
      rw [applyRecords_concat]
      by_cases hn : n = name
      · subst hn
        have hb : bindingsFor n (rs ++ [(n, dsc)]) =
            bindingsFor n rs ++ [dsc] := by
          rw [bindingsFor_append]; simp [bindingsFor]
        rw [hb]
        constructor
        · rw [add_in_scope_eq, dictLookup_insert_self, List.getLast?_concat]
        · rcases hB : bindingsFor n rs with _ | ⟨b, B'⟩
          · have h₁ : dictLookup n (applyRecords rs).in_scope = none := by
              rw [ih.1, hB]; rfl
            rw [add_re_binds_of_not_in_scope _ _ _ h₁, ih.2, hB]
            simp
          · obtain ⟨prev, hprev⟩ : ∃ p, (b :: B').getLast? = some p := by
              cases hL : (b :: B').getLast? with
              | none => rw [List.getLast?_eq_none_iff] at hL; cases hL
              | some p => exact ⟨p, rfl⟩
            have h₁ : dictLookup n (applyRecords rs).in_scope = some prev := by
              rw [ih.1, hB, hprev]
            rw [add_re_binds_of_in_scope _ _ _ _ h₁, dictLookup_insert_self]
            rcases B' with _ | ⟨b₂, B''⟩
            · have hpb : prev = b := by
                simpa using hprev.symm
              have h₂ : dictLookup n (applyRecords rs).re_binds = none := by
                rw [ih.2, hB]; simp
              rw [h₂]
              simp [newHistory, hpb]
            · have h₂ : dictLookup n (applyRecords rs).re_binds =
                  some (b :: b₂ :: B'') := by
                rw [ih.2, hB]
                have : 2 ≤ (b :: b₂ :: B'').length := by
                  simp [List.length_cons]
                rw [if_pos this]
              have hlen : 2 ≤ ((b :: b₂ :: B'') ++ [dsc]).length := by
                simp [List.length_append, List.length_cons]
              rw [h₂, if_pos hlen]
              simp [newHistory]
      · have hne : name ≠ n := fun h => hn h.symm
        have hb : bindingsFor name (rs ++ [(n, dsc)]) =
            bindingsFor name rs := by
          rw [bindingsFor_append]; simp [bindingsFor, hn]
        rw [hb]
        constructor
        · rw [add_in_scope_eq, dictLookup_insert_ne _ _ _ _ hne, ih.1]
        · cases hc : dictLookup n (applyRecords rs).in_scope with
          | none => rw [add_re_binds_of_not_in_scope _ _ _ hc, ih.2]
          | some prev =>
              rw [add_re_binds_of_in_scope _ _ _ _ hc,
                dictLookup_insert_ne _ _ _ _ hne, ih.2]

theorem visitStmts_append (s : GlobalRebindFinder) (l l' : List Stmt) :
    visitStmts s (l ++ l') = visitStmts (visitStmts s l) l' := by
  induction l generalizing s with
  | nil => rfl
  | cons st rest ih => simp [visitStmts, ih]

theorem visitHandlers_eq_flatten (s : GlobalRebindFinder)
    (handlers : List (List Stmt)) :
    visitHandlers s handlers = visitStmts s handlers.flatten := by
  induction handlers generalizing s with
  | nil => rfl
  | cons h rest ih => simp [visitHandlers, visitStmts_append, ih]

theorem assign_fold_skip (valueDump : String) (targets : List Target)
    (h : ∀ t ∈ targets, isNameTarget t = false) (s : GlobalRebindFinder) :
    targets.foldl (visitAssignTarget valueDump) s = s := by
  induction targets generalizing s with
  | nil => rfl
  | cons t rest ih =>
      rw [List.foldl_cons]
      have ht := h t (List.mem_cons_self t rest)
      have hrest : ∀ t' ∈ rest, isNameTarget t' = false :=
        fun t' ht' => h t' (List.mem_cons_of_mem _ ht')
      cases t with
      | name id => simp [isNameTarget] at ht
      | tupleTarget => exact ih hrest s
      | attributeTarget => exact ih hrest s
      | subscriptTarget => exact ih hrest s

/-- C1: `record(name, descriptor)` — i.e. `add_name_to_scope` — makes
`descriptor` the current value of `name` in every case; when `name` was
not in scope the history dict is untouched; when it was in scope with no
history, the history becomes the previous current descriptor followed by
`descriptor`; when a history existed, `descriptor` is appended to it. -/
theorem add_name_to_scope_spec (s : GlobalRebindFinder)
    (name descriptor : String) :
    dictLookup name (add_name_to_scope s name descriptor).in_scope =
      some descriptor ∧
    (dictLookup name s.in_scope = none →
      (add_name_to_scope s name descriptor).re_binds = s.re_binds) ∧
    (∀ prev, dictLookup name s.in_scope = some prev →
      dictLookup name s.re_binds = none →
      dictLookup name (add_name_to_scope s name descriptor).re_binds =
        some [prev, descriptor]) ∧
    (∀ prev hist, dictLookup name s.in_scope = some prev →
      dictLookup name s.re_binds = some hist →
      dictLookup name (add_name_to_scope s name descriptor).re_binds =
        some (hist ++ [descriptor])) := by
  refine ⟨?_, ?_, ?_, ?_⟩
  · rw [add_in_scope_eq, dictLookup_insert_self]
  · intro h
    exact add_re_binds_of_not_in_scope s name descriptor h
  · intro prev h hnone
    rw [add_re_binds_of_in_scope s name descriptor prev h, hnone,
      dictLookup_insert_self]
    rfl
  · intro prev hist h hsome
    rw [add_re_binds_of_in_scope s name descriptor prev h, hsome,
      dictLookup_insert_self]
    rfl

/-- Witness for C1 at a concrete tracker: rebinding `x` (current value
`"a"`, no history) with `"b"` seeds the history `["a", "b"]`. -/
theorem add_name_to_scope_spec_witness :
    dictLookup "x" (add_name_to_scope
      { in_scope := [("x", "a")], re_binds := [] } "x" "b").re_binds =
      some ["a", "b"] := by
  have h := add_name_to_scope_spec
    { in_scope := [("x", "a")], re_binds := [] } "x" "b"
  exact h.2.2.1 "a" (by decide) (by decide)

/-- C9: over any record sequence on a fresh tracker, a name is a key of
the history dict iff at least two bindings were observed for it, and a
present history has length at least two and is exactly the chronological
list of all observed descriptors for that name. -/
theorem re_binds_key_iff_two_bindings (records : List (String × String))
    (name : String) :
    ((∃ hist, dictLookup name (applyRecords records).re_binds = some hist) ↔
      2 ≤ (bindingsFor name records).length) ∧
    (∀ hist, dictLookup name (applyRecords records).re_binds = some hist →
      2 ≤ hist.length ∧ hist = bindingsFor name records) := by
  have inv := (applyRecords_inv records name).2
  constructor
  · constructor
    · rintro ⟨hist, hh⟩
      rw [inv] at hh
      by_cases hl : 2 ≤ (bindingsFor name records).length
      · exact hl
      · rw [if_neg hl] at hh; cases hh
    · intro hl
      exact ⟨_, by rw [inv, if_pos hl]⟩
  · intro hist hh
    rw [inv] at hh
    by_cases hl : 2 ≤ (bindingsFor name records).length
    · rw [if_pos hl] at hh
      obtain rfl := Option.some.inj hh
      exact ⟨hl, rfl⟩
    · rw [if_neg hl] at hh; cases hh

/-- Witness for C9 at a concrete two-binding sequence for `x`. -/
theorem re_binds_key_iff_two_bindings_witness :
    dictLookup "x" (applyRecords [("x", "1"), ("x", "2")]).re_binds =
      some ["1", "2"] := by
  have h := re_binds_key_iff_two_bindings [("x", "1"), ("x", "2")] "x"
  obtain ⟨hist, hh⟩ := h.1.2 (by decide)
  have h₂ := h.2 hist hh
  rw [hh, h₂.2]
  decide

/-- C10: over any record sequence on a fresh tracker, a name with a
history entry is also in scope, and its current descriptor is the last
element of its history. -/
theorem re_binds_current_is_last (records : List (String × String))
    (name : String) (hist : List String)
    (hh : dictLookup name (applyRecords records).re_binds = some hist) :
    ∃ cur, dictLookup name (applyRecords records).in_scope = some cur ∧
      hist.getLast? = some cur := by
  have inv := applyRecords_inv records name
  rw [inv.2] at hh
  by_cases hl : 2 ≤ (bindingsFor name records).length
  · rw [if_pos hl] at hh
    obtain rfl := Option.some.inj hh
    cases hL : (bindingsFor name records).getLast? with
    | none =>
        rw [List.getLast?_eq_none_iff] at hL
        rw [hL] at hl
        simp at hl
    | some cur =>
        exact ⟨cur, by rw [inv.1, hL], rfl⟩
  · rw [if_neg hl] at hh; cases hh

/-- Witness for C10 at a concrete two-binding sequence for `x`. -/
theorem re_binds_current_is_last_witness :
    ∃ cur, dictLookup "x"
        (applyRecords [("x", "1"), ("x", "2")]).in_scope = some cur ∧
      (["1", "2"] : List String).getLast? = some cur :=
  re_binds_current_is_last [("x", "1"), ("x", "2")] "x" ["1", "2"] (by decide)

/-- C2 fails as stated: a top-level `if` statement is not one of the five
recognized kinds, yet visiting it does change the tracker when its body
contains an assignment, because `generic_visit` recurses into the body. -/
theorem visit_if_body_counterexample :
    visitStmt initialState
      (Stmt.ifStmt [Stmt.assign [Target.name "x"] "Constant(value=1)"] []) ≠
      initialState := by
  decide

/-- C2 amended: visiting a top-level statement that is not one of the
five recognized kinds falls through to generic traversal — its effect on
the tracker equals visiting the statements nested directly in its blocks,
in field order.  A statement with no nested statements (e.g. a plain
expression statement) therefore leaves the tracker unchanged, but the
bodies of control-flow statements do take effect. -/
theorem visit_unrecognized_generic (s : GlobalRebindFinder) (st : Stmt)
    (h : isRecognizedStmt st = false) :
    visitStmt s st = visitStmts s (nestedStmts st) := by
  cases st with
  | importStmt names => simp [isRecognizedStmt] at h
  | importFrom module names => simp [isRecognizedStmt] at h
  | assign targets valueDump => simp [isRecognizedStmt] at h
  | classDef n b => simp [isRecognizedStmt] at h
  | functionDef n b => simp [isRecognizedStmt] at h
  | ifStmt b o => simp [visitStmt, nestedStmts, visitStmts_append]
  | forStmt b o => simp [visitStmt, nestedStmts, visitStmts_append]
  | whileStmt b o => simp [visitStmt, nestedStmts, visitStmts_append]
  | withStmt b => simp [visitStmt, nestedStmts]
  | tryStmt b hs o f =>
      simp [visitStmt, nestedStmts, visitStmts_append,
        visitHandlers_eq_flatten]
  | exprStmt => simp [visitStmt, nestedStmts, visitStmts]
  | passStmt => simp [visitStmt, nestedStmts, visitStmts]

/-- Witness for the amended C2 at a concrete statement: a plain
expression statement leaves a tracker unchanged. -/
theorem visit_unrecognized_generic_witness :
    visitStmt initialState Stmt.exprStmt =
      visitStmts initialState (nestedStmts Stmt.exprStmt) :=
  visit_unrecognized_generic initialState Stmt.exprStmt (by decide)

/-- C4 fails as stated: the multi-target assignment `a = b = 1` does
produce binding events — the target loop records every simple-name
target, so both `a` and `b` are bound and the tracker changes. -/
theorem visit_assign_multi_target_counterexample :
    visitStmt initialState
      (Stmt.assign [Target.name "a", Target.name "b"] "Constant(value=1)") ≠
      initialState := by
  decide

/-- C4 amended: a target that is not a simple name produces no binding
event, so an assignment none of whose targets is a simple name leaves the
tracker unchanged; but each simple-name target of a multi-target
assignment `a = b = expr` is recorded in turn, with the serialized
right-hand expression as its value. -/
theorem visit_assign_targets_spec :
    (∀ (s : GlobalRebindFinder) (targets : List Target) (valueDump : String),
      (∀ t ∈ targets, isNameTarget t = false) →
      visitStmt s (Stmt.assign targets valueDump) = s) ∧
    (∀ (s : GlobalRebindFinder) (a b valueDump : String),
      visitStmt s (Stmt.assign [Target.name a, Target.name b] valueDump) =
        add_name_to_scope (add_name_to_scope s a valueDump) b valueDump) := by
  constructor
  · intro s targets valueDump h
    simp only [visitStmt]
    exact assign_fold_skip valueDump targets h s
  · intro s a b valueDump
    simp [visitStmt, visitAssignTarget]

/-- Witness for the amended C4 at a concrete statement: an assignment
whose only target is a tuple leaves a tracker unchanged. -/
theorem visit_assign_targets_spec_witness :
    visitStmt initialState (Stmt.assign [Target.tupleTarget] "Name(id=q)") =
      initialState :=
  visit_assign_targets_spec.1 initialState [Target.tupleTarget] "Name(id=q)"
    (by decide)

/-- C6: the visitor never traverses into class or function bodies — the
effect of visiting a definition is independent of its body — so a nested
binding of an outer top-level name produces no event, as the concrete
module (an assignment to `x` followed by a function and a class whose
bodies both reassign `x`) shows: its history dict stays empty. -/
theorem class_function_bodies_not_traversed :
    (∀ (s : GlobalRebindFinder) (n : String) (b b' : List Stmt),
      visitStmt s (Stmt.classDef n b) = visitStmt s (Stmt.classDef n b')) ∧
    (∀ (s : GlobalRebindFinder) (n : String) (b b' : List Stmt),
      visitStmt s (Stmt.functionDef n b) =
        visitStmt s (Stmt.functionDef n b')) ∧
    (visitModule [Stmt.assign [Target.name "x"] "Constant(value=1)",
        Stmt.functionDef "f" [Stmt.assign [Target.name "x"] "Constant(value=2)"],
        Stmt.classDef "C"
          [Stmt.assign [Target.name "x"] "Constant(value=3)"]]).re_binds =
      [] := by
  refine ⟨fun s n b b' => rfl, fun s n b b' => rfl, by decide⟩

/-- C8 fails as stated at a relative import with no module
(`from . import x`): the code records the descriptor
`"(import from) x"`, while the claim's format — module and name joined by
a dot, with an empty module — yields `"(import from) .x"`. -/
theorem import_from_descriptor_counterexample :
    dictLookup "x" (visitStmt initialState
        (Stmt.importFrom none [{ name := "x", asname := none }])).in_scope =
      some "(import from) x" ∧
    claimImportFromDescriptor none "x" = "(import from) .x" ∧
    ("(import from) x" : String) ≠ "(import from) .x" := by
  refine ⟨by decide, by decide, by decide⟩

/-- C8 amended: visiting an import-from statement records, for each
imported entity in order, a binding of its bound name (alias if given,
else the imported name) to its descriptor, where the descriptor drops the
dot when the module is absent and never resolves relative-import levels. -/
theorem visit_import_from_spec (s : GlobalRebindFinder)
    (module : Option String) (names : List Alias) :
    visitStmt s (Stmt.importFrom module names) =
      names.foldl
        (fun st a =>
          add_name_to_scope st (boundName a)
            (importFromDescriptor module a.name)) s := by
  have hfun : visitImportFromAlias module =
      fun st a =>
        add_name_to_scope st (boundName a)
          (importFromDescriptor module a.name) := by
    funext st a
    obtain ⟨nm, asn⟩ := a
    cases asn <;> cases module <;>
      simp [visitImportFromAlias, boundName, importFromDescriptor,
        String.append_assoc]
  simp only [visitStmt, hfun]

/-- C7: the directory scan keeps exactly the glob candidates whose
relative path contains neither `"setup.py"` nor `"test"` as a contiguous
substring anywhere; the filter is plain substring matching on the whole
relative path, so `"pkg/tests/util.py"`, a path under a directory named
`"attestation"`, and a top-level `"setup.py"` are all dropped, whatever
the directory contains. -/
theorem candidate_filter_spec (d : Directory) (p : String) :
    (p ∈ candidateFiles d ↔
      p ∈ d.pyFiles ++ d.pyiFiles ∧
      ¬(∃ pre post : String, p = pre ++ "setup.py" ++ post) ∧
      ¬(∃ pre post : String, p = pre ++ "test" ++ post)) ∧
    "pkg/tests/util.py" ∉ candidateFiles d ∧
    "attestation/helper.py" ∉ candidateFiles d ∧
    "setup.py" ∉ candidateFiles d := by
  have hmem : ∀ q : String, q ∈ candidateFiles d ↔
      q ∈ d.pyFiles ++ d.pyiFiles ∧
      pyIn "setup.py" q = false ∧ pyIn "test" q = false := by
    intro q
    simp [candidateFiles, List.mem_filter]
    tauto
  refine ⟨?_, ?_, ?_, ?_⟩
  · rw [hmem p]
    constructor
    · rintro ⟨h₁, h₂, h₃⟩
      refine ⟨h₁, ?_, ?_⟩
      · intro hex
        rw [← pyIn_iff] at hex
        rw [h₂] at hex
        cases hex
      · intro hex
        rw [← pyIn_iff] at hex
        rw [h₃] at hex
        cases hex
    · rintro ⟨h₁, h₂, h₃⟩
      refine ⟨h₁, ?_, ?_⟩
      · cases hb : pyIn "setup.py" p with
        | false => rfl
        | true => exact absurd ((pyIn_iff _ _).1 hb) h₂
      · cases hb : pyIn "test" p with
        | false => rfl
        | true => exact absurd ((pyIn_iff _ _).1 hb) h₃
  · intro hq
    rw [hmem] at hq
    exact absurd hq.2.2 (by decide)
  · intro hq
    rw [hmem] at hq
    exact absurd hq.2.2 (by decide)
  · intro hq
    rw [hmem] at hq
    exact absurd hq.2.1 (by decide)

/-- Witness for C7 at a concrete directory: `"keep.py"` survives the
filter, hence by the characterization it has no `"setup.py"`
decomposition. -/
theorem candidate_filter_spec_witness :
    ¬(∃ pre post : String, "keep.py" = pre ++ "setup.py" ++ post) :=
  ((candidate_filter_spec
      { pyFiles := ["keep.py"], pyiFiles := [],
        parse := fun _ => Except.ok [] } "keep.py").1.1 (by decide)).2.1

/-- C5: a parse or read failure on any single candidate file is fatal to
the whole directory scan: no aggregate is ever produced, and when every
failing candidate raises the same error (in particular when exactly one
file fails) the run fails with precisely that error — files scanned
before the failing one contribute nothing. -/
theorem scan_failure_fatal (directory : String) (d : Directory)
    (p e : String) (hp : p ∈ candidateFiles d)
    (he : d.parse p = Except.error e) :
    (∀ m, re_binds_in_directory directory d ≠ Except.ok m) ∧
    ((∀ q ∈ candidateFiles d, ∀ e₁, d.parse q = Except.error e₁ → e₁ = e) →
      re_binds_in_directory directory d = Except.error e) := by
  have main : ∀ ps : List String, p ∈ ps →
      (∀ m, scanFiles directory d ps ≠ Except.ok m) ∧
      ((∀ q ∈ ps, ∀ e₁, d.parse q = Except.error e₁ → e₁ = e) →
        scanFiles directory d ps = Except.error e) := by
    intro ps
    induction ps with
    | nil => intro hmem; cases hmem
    | cons q rest ih =>
        intro hmem
        cases hq : d.parse q with
        | error e₀ =>
            constructor
            · intro m hok
              simp only [scanFiles, hq, re_binds_in_source] at hok
              exact Except.noConfusion hok
            · intro hall
              have he₀ : e₀ = e := hall q (List.mem_cons_self q rest) e₀ hq
              simp only [scanFiles, hq, re_binds_in_source, he₀]
        | ok stmts =>
            have hpr : p ∈ rest := by
              cases List.mem_cons.1 hmem with
              | inl hpq =>
                  subst hpq
                  rw [he] at hq
                  cases hq
              | inr hr => exact hr
            have ihr := ih hpr
            constructor
            · intro m hok
              simp only [scanFiles, hq, re_binds_in_source] at hok
              cases hrest : scanFiles directory d rest with
              | error e₁ => rw [hrest] at hok; cases hok
              | ok m₁ => exact ihr.1 m₁ hrest
            · intro hall
              have hr : scanFiles directory d rest = Except.error e :=
                ihr.2 (fun q₁ hq₁ e₁ he₁ =>
                  hall q₁ (List.mem_cons_of_mem _ hq₁) e₁ he₁)
              simp only [scanFiles, hq, re_binds_in_source, hr]
  exact ⟨(main (candidateFiles d) hp).1, (main (candidateFiles d) hp).2⟩

/-- Witness for C5 at a concrete one-file directory whose only candidate
fails to parse: the scan fails with exactly that error. -/
theorem scan_failure_fatal_witness :
    re_binds_in_directory "proj"
      { pyFiles := ["bad.py"], pyiFiles := [],
        parse := fun _ => Except.error "boom" } = Except.error "boom" :=
  (scan_failure_fatal "proj"
      { pyFiles := ["bad.py"], pyiFiles := [],
        parse := fun _ => Except.error "boom" } "bad.py" "boom"
      (by decide) rfl).2
    (fun q hq e₁ he₁ => (Except.error.inj he₁).symm)

/-- C3 diverges from the code: with one candidate file whose re-bind
history is empty, the aggregate has zero files with non-empty history,
yet `main` prints nothing at all; the no-re-binds message is printed only
when the aggregate itself has no files, as the empty directory shows. -/
theorem no_rebinds_message_divergence :
    re_binds_in_directory "proj" emptyHistoryDir =
      Except.ok [("proj/a.py", [])] ∧
    mainOutput "proj" emptyHistoryDir = Except.ok [] ∧
    mainOutput "proj" noCandidatesDir =
      Except.ok ["(No global re-binds found in proj)"] := by
  refine ⟨rfl, rfl, rfl⟩
